import Mathlib

/-!
Shallow embedding of the writer-assist editor plugin (src/main.ts).

Pure string helpers of the source are translated directly.  The
effectful command handlers are modelled as pure functions from their
resolved external inputs (settings, vault contents, prompt results,
editor selection) to an outcome record listing, in order, the editor
edits issued, the notices shown, and the vault and settings afterwards.
A prompt result is an Option value: none models a cancelled prompt
(the modal resolves with null in the source).
-/

namespace WriterAssist

/-- A file handle in the host vault: a path and a base name (the path
minus directory and extension), mirroring the two TFile fields the
plugin reads. -/
structure TFile where
  path : String
  basename : String
deriving DecidableEq, Repr

/-- The JavaScript whitespace class: the code points matched by the
regex whitespace class and removed by String.trim and String.trimEnd
(WhiteSpace plus LineTerminator). -/
def isJsWhitespace (c : Char) : Bool :=
  c.toNat = 0x9 || c.toNat = 0xA || c.toNat = 0xB || c.toNat = 0xC ||
  c.toNat = 0xD || c.toNat = 0x20 || c.toNat = 0xA0 || c.toNat = 0x1680 ||
  (0x2000 ≤ c.toNat && c.toNat ≤ 0x200A) || c.toNat = 0x2028 ||
  c.toNat = 0x2029 || c.toNat = 0x202F || c.toNat = 0x205F ||
  c.toNat = 0x3000 || c.toNat = 0xFEFF

/-- Model of JavaScript String.trim: strip whitespace from both ends. -/
def jsTrim (s : String) : String :=
  String.mk (((s.data.dropWhile isJsWhitespace).reverse.dropWhile isJsWhitespace).reverse)

/-- Model of JavaScript String.trimEnd: strip trailing whitespace. -/
def jsTrimEnd (s : String) : String :=
  String.mk ((s.data.reverse.dropWhile isJsWhitespace).reverse)

/-- A character of the regex class of whitespace and underscore, the
class replaced by hyphens in addSectionWikilink. -/
def isSpaceOrUnderscore (c : Char) : Bool :=
  isJsWhitespace c || c = '_'

/-- Model of the global regex replacement, in addSectionWikilink, of
every maximal run of whitespace and underscore characters by a single
hyphen. -/
def collapseRuns : List Char → List Char
  | [] => []
  | [c] => if isSpaceOrUnderscore c then ['-'] else [c]
  | c :: d :: rest =>
    if isSpaceOrUnderscore c then
      if isSpaceOrUnderscore d then collapseRuns (d :: rest)
      else '-' :: collapseRuns (d :: rest)
    else c :: collapseRuns (d :: rest)

/-- An ASCII letter, digit, or hyphen: the characters kept by the
second regex replacement in addSectionWikilink. -/
def isAllowedIdChar (c : Char) : Bool :=
  (65 ≤ c.toNat && c.toNat ≤ 90) || (97 ≤ c.toNat && c.toNat ≤ 122) ||
  (48 ≤ c.toNat && c.toNat ≤ 57) || c = '-'

/-- The section-id normalization pipeline of addSectionWikilink: trim,
collapse whitespace and underscore runs to single hyphens, then strip
every character that is not a letter, digit or hyphen. -/
def normalizeSectionId (s : String) : String :=
  String.mk ((collapseRuns (jsTrim s).data).filter isAllowedIdChar)

/-- The digit characters of Number.toString with radix 36: the digits
0 to 9 followed by the letters a to z. -/
def base36Char (d : Fin 36) : Char :=
  if d.val < 10 then Char.ofNat (48 + d.val) else Char.ofNat (87 + d.val)

/-- Model of randomSectionId from src/main.ts, which evaluates
Math.random().toString(36).substring(2, 8).  The random double in
[0, 1) is represented by the digit list of the base-36 fractional
expansion that toString prints: the empty list stands for the double 0
(printed just "0"), and a nonzero double is printed "0." followed by
its digits with no trailing zero.  substring(2, 8) therefore keeps at
most the first six of those digits. -/
def randomSectionId (digits : List (Fin 36)) : String :=
  String.mk ((digits.take 6).map base36Char)

/-- The section-id selection logic of addSectionWikilink: a missing or
blank prompt response skips normalization, and a response that is falsy
after normalization falls back to a random id (JavaScript truthiness:
both null and the empty string are falsy). -/
def chooseSectionId (input : Option String) (digits : List (Fin 36)) : String :=
  match input with
  | none => randomSectionId digits
  | some s =>
    if s = "" then randomSectionId digits
    else
      let n := normalizeSectionId s
      if n = "" then randomSectionId digits
      else n

/-- The counting loop of shortenNotePath: count is the number of
matching base names seen so far; as soon as it exceeds one the loop
returns the path with its last three characters (the ".md" suffix)
sliced off. -/
def shortenLoop (note : TFile) : List TFile → Nat → String
  | [], _ => note.basename
  | f :: rest, count =>
    let count := if f.basename = note.basename then count + 1 else count
    if count > 1 then String.mk (note.path.data.take (note.path.data.length - 3))
    else shortenLoop note rest count

/-- shortenNotePath from src/main.ts, with the vault argument replaced
by the list its getMarkdownFiles call returns: the bare base name when
unique among allNotes, the path minus ".md" otherwise. -/
def shortenNotePath (note : TFile) (allNotes : List TFile) : String :=
  shortenLoop note allNotes 0

/-- A character pool: a named, toggleable ordered list of note paths. -/
structure CharacterPool where
  name : String
  charNotes : List String
  isEnabled : Bool := true
deriving DecidableEq, Repr

/-- getActiveCharNotes from src/main.ts: a first pass counts the
members of enabled pools; when the count is zero the empty list is
returned, otherwise a second pass collects the members of enabled pools
in pool order then member order. -/
def getActiveCharNotes (pools : List CharacterPool) : List String :=
  let activeCharCount :=
    pools.foldl (fun acc p => if p.isEnabled then acc + p.charNotes.length else acc) 0
  if activeCharCount = 0 then []
  else pools.foldl (fun acc p => if p.isEnabled then acc ++ p.charNotes else acc) []

/-- The persisted plugin settings. -/
structure WriterAssistSettings where
  sectionNotes : List String
  sectionSeparator : String
  characterPools : List CharacterPool
deriving DecidableEq

/-- DEFAULT_SETTINGS from src/main.ts. -/
def DEFAULT_SETTINGS : WriterAssistSettings where
  sectionNotes := ["Test Note"]
  sectionSeparator := "\n\n---\n"
  characterPools := [{ name := "Test Pool", charNotes := ["Test Note"], isEnabled := true }]

/-- The slice of the host vault the plugin reads and writes: the
markdown files with their contents, in index order. -/
structure Vault where
  files : List (TFile × String)
deriving DecidableEq

/-- vault.getMarkdownFiles. -/
def Vault.getMarkdownFiles (v : Vault) : List TFile :=
  v.files.map Prod.fst

/-- vault.getFileByPath: the first file with the given path, if any. -/
def Vault.getFileByPath (v : Vault) (path : String) : Option TFile :=
  v.getMarkdownFiles.find? (fun f => f.path == path)

/-- vault.process: rewrite the content of the given file with the
supplied transformation, applied atomically by the host. -/
def Vault.process (v : Vault) (file : TFile) (f : String → String) : Vault :=
  ⟨v.files.map (fun e => if e.1 = file then (e.1, f e.2) else e)⟩

/-- The link markup built by addCharacterReference and addCharacterDiag
from the shortened path and the alias prompt result: aliased when the
alias is truthy, plain otherwise. -/
def composeCharacterLink (shortNotePath : String) (aliasValue : Option String) : String :=
  match aliasValue with
  | some a =>
    if a = "" then "[[" ++ shortNotePath ++ "]]"
    else "[[" ++ shortNotePath ++ "|" ++ a ++ "]]"
  | none => "[[" ++ shortNotePath ++ "]]"

/-- The section-anchor link markup built by addSectionWikilink. -/
def composeSectionLink (shortNotePath sectionId selection : String) : String :=
  "[[" ++ shortNotePath ++ "#^" ++ sectionId ++ "|" ++ selection ++ "]]"

/-- The content transformation addSectionWikilink passes to
vault.process: trailing whitespace is trimmed when the target is not
the file open in the view, and an empty content receives the section
text with no leading separator. -/
def appendTransform (isViewFile : Bool) (separator selection sectionId content : String) : String :=
  let content := if isViewFile then content else jsTrimEnd content
  if content = "" then selection ++ " ^" ++ sectionId ++ "\n"
  else content ++ separator ++ selection ++ " ^" ++ sectionId ++ "\n"

/-- An editor mutation issued by a command handler. -/
inductive EditOp where
  | replaceSelection (s : String)
  | replaceRange (s : String)
  | setCursor
  | setSelection
deriving DecidableEq, Repr

/-- The observable outcome of one command-handler run: the editor edits
in order, the notices shown, and the vault and settings afterwards. -/
structure HandlerOutcome where
  edits : List EditOp
  notices : List String
  vault : Vault
  settings : WriterAssistSettings
deriving DecidableEq

/-- The outcome of the character-resolution step: the resolved note,
the notices shown, and whether the selection modal was opened. -/
structure CharPromptOutcome where
  result : Option TFile
  notices : List String
  promptOpened : Bool
deriving DecidableEq

/-- promptForCharacter from src/main.ts, with the suggestion modal
replaced by its resolved value charSelection (none when cancelled). -/
def promptForCharacter (pools : List CharacterPool) (vault : Vault)
    (charSelection : Option String) : CharPromptOutcome :=
  let activeCharNotes := getActiveCharNotes pools
  if activeCharNotes.length = 0 then
    { result := none, notices := ["No active characters to reference."], promptOpened := false }
  else
    match charSelection with
    | none => { result := none, notices := ["No character selected."], promptOpened := true }
    | some sel =>
      if sel = "" then
        { result := none, notices := ["No character selected."], promptOpened := true }
      else
        match vault.getFileByPath sel with
        | none => { result := none, notices := ["Note not found."], promptOpened := true }
        | some f => { result := some f, notices := [], promptOpened := true }

/-- addCharacterReference from src/main.ts as a pure outcome function:
charSelection and aliasInput are the resolved prompt values (none when
the prompt was cancelled). -/
def addCharacterReference (settings : WriterAssistSettings) (vault : Vault)
    (charSelection : Option String) (aliasInput : Option String) : HandlerOutcome :=
  let pc := promptForCharacter settings.characterPools vault charSelection
  match pc.result with
  | none => { edits := [], notices := pc.notices, vault := vault, settings := settings }
  | some targetNote =>
    let shortNotePath := shortenNotePath targetNote vault.getMarkdownFiles
    let link := composeCharacterLink shortNotePath aliasInput
    { edits := [EditOp.replaceSelection link], notices := pc.notices,
      vault := vault, settings := settings }

/-- The resolved external inputs of one addSectionWikilink run: the two
possible target-note prompts, the section-id prompt, the digit
expansion of the random double, the current editor selection and the
file open in the view. -/
structure SectionWikilinkInputs where
  noteFromVaultPrompt : Option TFile
  noteFromListPrompt : Option String
  sectionIdInput : Option String
  randDigits : List (Fin 36)
  editorSelection : String
  viewFile : Option TFile
deriving DecidableEq

/-- The tail of addSectionWikilink once the target note is resolved:
choose the section id, build and insert the anchor link, and append the
section text to the target note through vault.process. -/
def addSectionWikilinkTo (settings : WriterAssistSettings) (vault : Vault)
    (inp : SectionWikilinkInputs) (targetNote : TFile) : HandlerOutcome :=
  let sectionId := chooseSectionId inp.sectionIdInput inp.randDigits
  let selection := if inp.editorSelection = "" then "Replace this" else inp.editorSelection
  let shortNotePath := shortenNotePath targetNote vault.getMarkdownFiles
  let link := composeSectionLink shortNotePath sectionId selection
  let vault2 := vault.process targetNote
    (appendTransform (decide (inp.viewFile = some targetNote))
      settings.sectionSeparator selection sectionId)
  { edits := [EditOp.replaceSelection link, EditOp.setSelection],
    notices := [], vault := vault2, settings := settings }

/-- addSectionWikilink from src/main.ts as a pure outcome function,
following the control flow of the source: resolve the target note from
the configured list (or from the whole vault when the list is empty),
abort with a notice when nothing is selected or the path does not
resolve, and otherwise continue with addSectionWikilinkTo. -/
def addSectionWikilink (settings : WriterAssistSettings) (vault : Vault)
    (inp : SectionWikilinkInputs) : HandlerOutcome :=
  if settings.sectionNotes.length = 0 then
    match inp.noteFromVaultPrompt with
    | none =>
      { edits := [], notices := ["Note not found."], vault := vault, settings := settings }
    | some t => addSectionWikilinkTo settings vault inp t
  else
    match inp.noteFromListPrompt with
    | none =>
      { edits := [], notices := ["No note selected."], vault := vault, settings := settings }
    | some sel =>
      if sel = "" then
        { edits := [], notices := ["No note selected."], vault := vault, settings := settings }
      else
        match vault.getFileByPath sel with
        | none =>
          { edits := [], notices := ["Note not found."], vault := vault, settings := settings }
        | some t => addSectionWikilinkTo settings vault inp t

/-- The add-note click handler of the settings-tab section list: reject
a path already present, otherwise push it at the end. -/
def addSectionNote (sectionNotes : List String) (path : String) : List String :=
  if sectionNotes.contains path then sectionNotes else sectionNotes ++ [path]

/-- One settings-tab mutation of the sectionNotes list: adding a note
(with the membership check) or removing the note at an index; these are
the only operations in the source that modify the list. -/
inductive SectionNotesStep : List String → List String → Prop
  | add (l : List String) (path : String) : SectionNotesStep l (addSectionNote l path)
  | remove (l : List String) (i : Nat) : SectionNotesStep l (l.eraseIdx i)

/-- The sectionNotes lists reachable from the default settings through
the settings-tab operations. -/
inductive ReachableSectionNotes : List String → Prop
  | init : ReachableSectionNotes DEFAULT_SETTINGS.sectionNotes
  | step {l l2 : List String} :
    ReachableSectionNotes l → SectionNotesStep l l2 → ReachableSectionNotes l2

/-- Model of String.toLowerCase on the ASCII range: uppercase letters
are shifted to lowercase, every other character is unchanged. -/
def jsToLowerChar (c : Char) : Char :=
  if 65 ≤ c.toNat && c.toNat ≤ 90 then Char.ofNat (c.toNat + 32) else c

/-- Lowercasing lifted to strings. -/
def jsToLower (s : String) : String :=
  String.mk (s.data.map jsToLowerChar)

/-- Whether the pattern is a prefix of the character list. -/
def prefixAt : List Char → List Char → Bool
  | [], _ => true
  | _ :: _, [] => false
  | p :: ps, c :: cs => p == c && prefixAt ps cs

/-- Whether the pattern occurs as a contiguous substring. -/
def containsAt (pat : List Char) : List Char → Bool
  | [] => pat.isEmpty
  | c :: cs => prefixAt pat (c :: cs) || containsAt pat cs

/-- Model of the String.contains polyfill used by the suggestion
modals: substring containment. -/
def strContains (s pat : String) : Bool :=
  containsAt pat.data s.data

/-- The manual filtering loop shared by the two suggestion modals: scan
at most the first bound suggestions, keeping those satisfying pred. -/
def filterFirst {α : Type} (bound : Nat) (pred : α → Bool) : List α → List α
  | [] => []
  | x :: xs =>
    match bound with
    | 0 => []
    | b + 1 => if pred x then x :: filterFirst b pred xs else filterFirst b pred xs

/-- TextSuggestModal.getSuggestions: lowercase the query, scan at most
the first 1000 suggestions, keep those whose lowercased text contains
the query. -/
def textGetSuggestions (suggestions : List String) (query : String) : List String :=
  let q := jsToLower query
  filterFirst 1000 (fun s => strContains (jsToLower s) q) suggestions

/-- NoteSuggestModal.getSuggestions: the same scan over at most the
first 1000 files, matching on the lowercased path. -/
def noteGetSuggestions (suggestions : List TFile) (query : String) : List TFile :=
  let q := jsToLower query
  filterFirst 1000 (fun f => strContains (jsToLower f.path) q) suggestions

/-! ## Helper lemmas -/

/-- Closed form of the shortenNotePath counting loop: starting from a
count of at most one, the loop returns the sliced path exactly when the
initial count plus the number of matching base names reaches two. -/
theorem shortenLoop_spec (note : TFile) (l : List TFile) :
    ∀ c : Nat, c ≤ 1 →
    shortenLoop note l c =
      if 2 ≤ c + (l.filter (fun f => f.basename == note.basename)).length
      then String.mk (note.path.data.take (note.path.data.length - 3))
      else note.basename := by
  induction l with
  | nil =>
    intro c hc
    rw [shortenLoop, List.filter_nil, List.length_nil, Nat.add_zero, if_neg (by omega)]
  | cons f rest ih =>
    intro c hc
    simp only [shortenLoop]
    by_cases h : f.basename = note.basename
    · rw [if_pos h]
      have hfc : ((f :: rest).filter (fun g => g.basename == note.basename)).length =
          (rest.filter (fun g => g.basename == note.basename)).length + 1 := by
        simp [List.filter_cons, h]
      rw [hfc]
      by_cases hcount : c + 1 > 1
      · rw [if_pos hcount, if_pos (by omega)]
      · have hc0 : c = 0 := by omega
        subst hc0
        rw [if_neg hcount, ih 1 (by omega)]
        by_cases h2 : 2 ≤ 1 + (rest.filter (fun g => g.basename == note.basename)).length
        · rw [if_pos h2, if_pos (by omega)]
        · rw [if_neg h2, if_neg (by omega)]
    · rw [if_neg h]
      have hfc : ((f :: rest).filter (fun g => g.basename == note.basename)).length =
          (rest.filter (fun g => g.basename == note.basename)).length := by
        simp [List.filter_cons, h]
      rw [hfc]
      by_cases hcount : c > 1
      · omega
      · rw [if_neg hcount, ih c hc]

/-- The counting pass of getActiveCharNotes computes the length of the
flattened member list of the enabled pools. -/
theorem foldl_activeCount (pools : List CharacterPool) (n : Nat) :
    pools.foldl (fun acc p => if p.isEnabled then acc + p.charNotes.length else acc) n =
      n + (((pools.filter (fun p => p.isEnabled)).map (fun p => p.charNotes)).join).length := by
  induction pools generalizing n with
  | nil => simp
  | cons p ps ih =>
    cases hp : p.isEnabled <;>
      simp [List.filter_cons, hp, ih] <;> omega

/-- The collecting pass of getActiveCharNotes appends the flattened
member list of the enabled pools to the accumulator. -/
theorem foldl_activeCollect (pools : List CharacterPool) (init : List String) :
    pools.foldl (fun acc p => if p.isEnabled then acc ++ p.charNotes else acc) init =
      init ++ ((pools.filter (fun p => p.isEnabled)).map (fun p => p.charNotes)).join := by
  induction pools generalizing init with
  | nil => simp
  | cons p ps ih =>
    cases hp : p.isEnabled <;>
      simp [List.filter_cons, hp, ih]

/-- The bounded filtering loop of the modals is filtering the first
bound elements. -/
theorem filterFirst_eq_take_filter {α : Type} (pred : α → Bool) :
    ∀ (bound : Nat) (l : List α), filterFirst bound pred l = (l.take bound).filter pred := by
  intro bound l
  induction l generalizing bound with
  | nil => cases bound <;> simp [filterFirst]
  | cons x xs ih =>
    cases bound with
    | zero => simp [filterFirst]
    | succ b => by_cases hp : pred x <;> simp [filterFirst, hp, ih]

/-- With a cancelled selection prompt the character-resolution step
never resolves a note. -/
theorem promptForCharacter_none_result (pools : List CharacterPool) (vault : Vault) :
    (promptForCharacter pools vault none).result = none := by
  simp only [promptForCharacter]
  split <;> rfl

/-! ## Claim C3 -/

/-- C3: shortenNotePath returns the bare base name when exactly one
note of the collection carries it, and the full path with the ".md"
extension suffix removed when two or more notes share it. -/
theorem shortenNotePath_disambiguates (note : TFile) (allNotes : List TFile)
    (hname : note.basename ≠ "") :
    ((allNotes.filter (fun f => f.basename == note.basename)).length = 1 →
      shortenNotePath note allNotes = note.basename) ∧
    (∀ p : String, note.path = p ++ ".md" →
      2 ≤ (allNotes.filter (fun f => f.basename == note.basename)).length →
      shortenNotePath note allNotes = p) := by
  constructor
  · intro h1
    rw [shortenNotePath, shortenLoop_spec note allNotes 0 (by omega), h1]
    rw [if_neg (by omega)]
  · intro p hp h2
    rw [shortenNotePath, shortenLoop_spec note allNotes 0 (by omega),
      if_pos (by omega), hp]
    have hdata : (p ++ ".md").data = p.data ++ ['.', 'm', 'd'] := by
      simp [String.data_append]
    rw [hdata]
    have hlen : (p.data ++ ['.', 'm', 'd']).length - 3 = p.data.length := by
      simp
    rw [hlen, List.take_left]

/-- Witness for C3 at a concrete vault: the base name "A" is unique, so
the shortened path is the base name; with a second note named "B" twice
the shortened path of a "B" note is its path minus ".md". -/
theorem shortenNotePath_disambiguates_witness :
    shortenNotePath ⟨"dir/A.md", "A"⟩ [⟨"dir/A.md", "A"⟩, ⟨"B.md", "B"⟩] = "A" ∧
    shortenNotePath ⟨"dir/B.md", "B"⟩ [⟨"dir/B.md", "B"⟩, ⟨"B.md", "B"⟩] = "dir/B" :=
  ⟨(shortenNotePath_disambiguates ⟨"dir/A.md", "A"⟩ [⟨"dir/A.md", "A"⟩, ⟨"B.md", "B"⟩]
      (by decide)).1 (by decide),
   (shortenNotePath_disambiguates ⟨"dir/B.md", "B"⟩ [⟨"dir/B.md", "B"⟩, ⟨"B.md", "B"⟩]
      (by decide)).2 "dir/B" (by decide) (by decide)⟩

/-! ## Claim C2 -/

/-- C2 counterexample: when the random double is 0, toString(36) prints
"0" and substring(2, 8) is empty, so the generated id has length 0, not
6; the claim that every producible value yields exactly six characters
is false. -/
theorem randomSectionId_zero_length :
    randomSectionId [] = "" ∧ (randomSectionId []).length ≠ 6 := by
  decide

/-- C2 amended: the generated id has min six (expansion length)
characters, so exactly six whenever the base-36 expansion of the random
double has at least six fractional digits, and every character is a
lowercase letter or digit. -/
theorem randomSectionId_spec (digits : List (Fin 36)) :
    (randomSectionId digits).length = min 6 digits.length ∧
    (6 ≤ digits.length → (randomSectionId digits).length = 6) ∧
    (∀ c ∈ (randomSectionId digits).data,
      (97 ≤ c.toNat ∧ c.toNat ≤ 122) ∨ (48 ≤ c.toNat ∧ c.toNat ≤ 57)) := by
  have hlen : (randomSectionId digits).length = min 6 digits.length := by
    simp [randomSectionId, String.length]
  refine ⟨hlen, ?_, ?_⟩
  · intro h6
    rw [hlen]
    omega
  · intro c hc
    simp only [randomSectionId] at hc
    rcases List.mem_map.mp hc with ⟨d, _, hd⟩
    subst hd
    have : ∀ d : Fin 36,
        (97 ≤ (base36Char d).toNat ∧ (base36Char d).toNat ≤ 122) ∨
        (48 ≤ (base36Char d).toNat ∧ (base36Char d).toNat ≤ 57) := by decide
    exact this d

/-- Witness for C2 amended: a six-digit expansion yields a six-character
id, and its first character is a base-36 digit character. -/
theorem randomSectionId_spec_witness :
    (randomSectionId [0, 1, 2, 3, 4, 5]).length = 6 ∧
    ((97 ≤ ('0' : Char).toNat ∧ ('0' : Char).toNat ≤ 122) ∨
      (48 ≤ ('0' : Char).toNat ∧ ('0' : Char).toNat ≤ 57)) :=
  ⟨(randomSectionId_spec [0, 1, 2, 3, 4, 5]).2.1 (by decide),
   (randomSectionId_spec [0, 1, 2, 3, 4, 5]).2.2 '0' (by decide)⟩

/-! ## Claim C4 -/

/-- C4: section-id normalization trims, collapses whitespace and
underscore runs to single hyphens and strips the remaining disallowed
characters, as on the spec examples; every output character is a
letter, digit or hyphen; and an input that is blank or normalizes to
the empty string makes the handler generate a random id instead. -/
theorem normalizeSectionId_spec (digits : List (Fin 36)) :
    normalizeSectionId "My Section!! 2" = "My-Section-2" ∧
    normalizeSectionId "a_b  c" = "a-b-c" ∧
    normalizeSectionId "   " = "" ∧
    normalizeSectionId "##" = "" ∧
    chooseSectionId (some "   ") digits = randomSectionId digits ∧
    chooseSectionId (some "##") digits = randomSectionId digits ∧
    chooseSectionId (some "") digits = randomSectionId digits ∧
    (∀ s : String, ∀ c ∈ (normalizeSectionId s).data, isAllowedIdChar c = true) := by
  refine ⟨by decide, by decide, by decide, by decide, rfl, rfl, rfl, ?_⟩
  intro s c hc
  simp only [normalizeSectionId] at hc
  exact (List.mem_filter.mp hc).2

/-- Witness for C4 at a concrete character of a concrete normalized
input. -/
theorem normalizeSectionId_spec_witness :
    isAllowedIdChar 'M' = true :=
  (normalizeSectionId_spec []).2.2.2.2.2.2.2 "My Section!! 2" 'M' (by decide)

/-! ## Claim C5 -/

/-- C5: the append transformation yields the bare section line when the
(conditionally trimmed) content is empty and the separator-prefixed
line otherwise; trailing whitespace is trimmed exactly when the target
note is not the open document. -/
theorem appendTransform_spec (isViewFile : Bool) (sep sel sid content : String) :
    ((if isViewFile then content else jsTrimEnd content) = "" →
      appendTransform isViewFile sep sel sid content = sel ++ " ^" ++ sid ++ "\n") ∧
    ((if isViewFile then content else jsTrimEnd content) ≠ "" →
      appendTransform isViewFile sep sel sid content =
        (if isViewFile then content else jsTrimEnd content) ++ sep ++ sel ++ " ^" ++ sid ++ "\n") := by
  constructor <;> intro h <;>
    cases isViewFile <;> simp_all [appendTransform]

/-- Witness for C5: a non-view-file target with trailing whitespace is
trimmed and separator-prefixed; an empty view-file target gets no
separator. -/
theorem appendTransform_spec_witness :
    appendTransform false "\n\n---\n" "Sel" "id1" "body  " = "body\n\n---\nSel ^id1\n" ∧
    appendTransform true "\n\n---\n" "Sel" "id1" "" = "Sel ^id1\n" :=
  ⟨((appendTransform_spec false "\n\n---\n" "Sel" "id1" "body  ").2 (by decide)).trans (by decide),
   ((appendTransform_spec true "\n\n---\n" "Sel" "id1" "").1 (by decide)).trans (by decide)⟩

/-! ## Claim C6 -/

/-- C6: getActiveCharNotes returns exactly the concatenation, in pool
order then member order, of the members of the enabled pools; in
particular it is empty when no pool is enabled or all enabled pools are
empty, and it matches the spec examples. -/
theorem getActiveCharNotes_spec :
    (∀ pools : List CharacterPool,
      getActiveCharNotes pools =
        ((pools.filter (fun p => p.isEnabled)).map (fun p => p.charNotes)).join) ∧
    getActiveCharNotes
      [{ name := "P1", charNotes := ["a"], isEnabled := false },
       { name := "P2", charNotes := ["b", "c"], isEnabled := true }] = ["b", "c"] ∧
    getActiveCharNotes [] = [] := by
  refine ⟨?_, by decide, by decide⟩
  intro pools
  simp only [getActiveCharNotes, foldl_activeCount, Nat.zero_add]
  by_cases h :
      (((pools.filter (fun p => p.isEnabled)).map (fun p => p.charNotes)).join).length = 0
  · rw [if_pos h, List.length_eq_zero.mp h]
  · rw [if_neg h, foldl_activeCollect, List.nil_append]

/-! ## Claim C7 -/

/-- C7: the three link markups are exactly the bracketed forms, with no
escaping of the alias or display text. -/
theorem composeLink_spec :
    (∀ s : String, composeCharacterLink s none = "[[" ++ s ++ "]]") ∧
    (∀ s a : String, a ≠ "" →
      composeCharacterLink s (some a) = "[[" ++ s ++ "|" ++ a ++ "]]") ∧
    (∀ s sid d : String,
      composeSectionLink s sid d = "[[" ++ s ++ "#^" ++ sid ++ "|" ++ d ++ "]]") := by
  refine ⟨fun s => rfl, fun s a ha => ?_, fun s sid d => rfl⟩
  simp [composeCharacterLink, ha]

/-- Witness for C7 with an alias containing unescaped special
characters. -/
theorem composeLink_spec_witness :
    composeCharacterLink "Note" (some "A|l]]") = "[[Note|A|l]]]]" :=
  (composeLink_spec.2.1 "Note" "A|l]]" (by decide)).trans (by decide)

/-! ## Claim C1 -/

/-- Settings used in the C1 run: no configured section notes, so the
handler prompts over the whole vault. -/
def c1Settings : WriterAssistSettings where
  sectionNotes := []
  sectionSeparator := "\n\n---\n"
  characterPools := []

/-- Vault used in the C1 run: a single empty note. -/
def c1Vault : Vault :=
  ⟨[(⟨"A.md", "A"⟩, "")]⟩

/-- Inputs of the C1 run: the target note is selected, but the
section-id prompt is cancelled (resolves null). -/
def c1Inputs : SectionWikilinkInputs where
  noteFromVaultPrompt := some ⟨"A.md", "A"⟩
  noteFromListPrompt := none
  sectionIdInput := none
  randDigits := [0, 0, 0, 0, 0, 0]
  editorSelection := ""
  viewFile := none

/-- Inputs of the C1 abort run: the target-note prompt itself is
cancelled. -/
def c1InputsCancel : SectionWikilinkInputs where
  noteFromVaultPrompt := none
  noteFromListPrompt := none
  sectionIdInput := none
  randDigits := []
  editorSelection := ""
  viewFile := none

/-- C1 counterexample: cancelling the section-id prompt mid-sequence
(it resolves with an absent value) does not abort addSectionWikilink;
the handler falls back to a random id, edits the editor and rewrites
the target note, so the document is not left as it was. -/
theorem addSectionWikilink_cancelled_prompt_edits :
    c1Inputs.sectionIdInput = none ∧
    (addSectionWikilink c1Settings c1Vault c1Inputs).edits ≠ [] ∧
    (addSectionWikilink c1Settings c1Vault c1Inputs).vault ≠ c1Vault := by
  decide

/-- C1 amended: cancelling a selection prompt (target note or
character) aborts with no edit and the vault and settings unchanged,
while the section-id and alias text prompts never abort; and neither
handler ever modifies the settings object. -/
theorem cancelSelectionPrompt_aborts
    (settings : WriterAssistSettings) (vault : Vault) (inp : SectionWikilinkInputs)
    (charSel aliasIn : Option String) :
    (settings.sectionNotes ≠ [] → inp.noteFromListPrompt = none →
      addSectionWikilink settings vault inp =
        { edits := [], notices := ["No note selected."], vault := vault, settings := settings }) ∧
    (settings.sectionNotes = [] → inp.noteFromVaultPrompt = none →
      addSectionWikilink settings vault inp =
        { edits := [], notices := ["Note not found."], vault := vault, settings := settings }) ∧
    (charSel = none →
      (addCharacterReference settings vault charSel aliasIn).edits = [] ∧
      (addCharacterReference settings vault charSel aliasIn).vault = vault) ∧
    (addSectionWikilink settings vault inp).settings = settings ∧
    (addCharacterReference settings vault charSel aliasIn).settings = settings := by
  refine ⟨?_, ?_, ?_, ?_, ?_⟩
  · intro h hn
    have hlen : ¬ settings.sectionNotes.length = 0 := by
      simpa [List.length_eq_zero] using h
    simp [addSectionWikilink, hlen, hn]
  · intro h hn
    simp [addSectionWikilink, h, hn]
  · intro h
    subst h
    have hres := promptForCharacter_none_result settings.characterPools vault
    constructor <;> simp [addCharacterReference, hres]
  · simp only [addSectionWikilink, addSectionWikilinkTo]
    repeat' split
    all_goals rfl
  · simp only [addCharacterReference]
    repeat' split
    all_goals rfl

/-- Witness for C1 amended: with the target-note prompt cancelled the
handler aborts and leaves the vault and settings untouched. -/
theorem cancelSelectionPrompt_aborts_witness :
    addSectionWikilink c1Settings c1Vault c1InputsCancel =
      { edits := [], notices := ["Note not found."], vault := c1Vault, settings := c1Settings } :=
  (cancelSelectionPrompt_aborts c1Settings c1Vault c1InputsCancel none none).2.1
    (by decide) (by decide)

/-! ## Claim C8 -/

/-- C8: every sectionNotes list reachable from the default settings
through the settings-tab operations contains each note path at most
once. -/
theorem reachableSectionNotes_nodup (l : List String)
    (h : ReachableSectionNotes l) : l.Nodup := by
  induction h with
  | init => decide
  | step hr hstep ih =>
    rename_i lcur lnext
    cases hstep with
    | add path =>
      by_cases hmem : lcur.contains path
      · have hmem2 : path ∈ lcur := by simpa using hmem
        simpa [addSectionNote, hmem2] using ih
      · have hnotmem : path ∉ lcur := by simpa using hmem
        rw [addSectionNote, if_neg (by simpa using hmem)]
        simp [List.nodup_append, ih, hnotmem]
    | remove i =>
      exact List.Nodup.sublist (List.eraseIdx_sublist lcur i) ih

/-- Witness for C8: the list reached by one add operation from the
default settings has no duplicates. -/
theorem reachableSectionNotes_nodup_witness :
    (["Test Note", "A"] : List String).Nodup :=
  reachableSectionNotes_nodup ["Test Note", "A"]
    (ReachableSectionNotes.step ReachableSectionNotes.init
      (SectionNotesStep.add ["Test Note"] "A"))

/-! ## Claim C9 -/

/-- C9: with an empty active-character list the character-resolution
step shows the notice and resolves to an absent value without ever
opening the selection prompt. -/
theorem promptForCharacter_empty (pools : List CharacterPool) (vault : Vault)
    (sel : Option String) (h : getActiveCharNotes pools = []) :
    promptForCharacter pools vault sel =
      { result := none, notices := ["No active characters to reference."],
        promptOpened := false } := by
  simp [promptForCharacter, h]

/-- Witness for C9 at an empty pool list. -/
theorem promptForCharacter_empty_witness :
    promptForCharacter [] ⟨[]⟩ none =
      { result := none, notices := ["No active characters to reference."],
        promptOpened := false } :=
  promptForCharacter_empty [] ⟨[]⟩ none (by decide)

/-! ## Claim C10 -/

/-- C10: both suggestion filters return exactly the elements among the
first 1000 suggestions, in order, whose lowercased text (respectively
path) contains the lowercased query; later suggestions are never
scanned. -/
theorem getSuggestions_spec :
    (∀ (suggestions : List String) (query : String),
      textGetSuggestions suggestions query =
        (suggestions.take 1000).filter
          (fun s => strContains (jsToLower s) (jsToLower query))) ∧
    (∀ (suggestions : List TFile) (query : String),
      noteGetSuggestions suggestions query =
        (suggestions.take 1000).filter
          (fun f => strContains (jsToLower f.path) (jsToLower query))) :=
  ⟨fun suggestions query => filterFirst_eq_take_filter _ 1000 suggestions,
   fun suggestions query => filterFirst_eq_take_filter _ 1000 suggestions⟩

end WriterAssist
